import Mathlib

/-!
Verification of the Track Lifecycle & Versioned Mix Orchestrator
(repository MonishKumarms3/AIremixer).

The Track Store is embedded from `src/server/storage.ts` (class `MemStorage`).
JavaScript `Map<number, V>` is modelled as an insertion-ordered association
list: `get` is the first entry with the key, `set` replaces the value in place
when the key is present and appends otherwise (the exact `Map.prototype.set`
semantics).  JavaScript `null`/`undefined` field values are both modelled as
`Option.none`.

The server route layer (the Generation Coordinator of the spec: the
`POST /api/tracks/:id/process`, `GET /api/tracks/:id/status` and
`DELETE /api/tracks` handlers) is not part of the provided sources; those
operations are modelled from the spec, each marked `Modelled from the spec:`
in its doc comment, and they mutate state only through the embedded
`MemStorage` operations.
-/

/-- Generation parameters (`track.settings`); the UI reads
`track.settings?.introLength` (TrackView). -/
structure Settings where
  introLength : Nat
deriving Repr, DecidableEq

/-- The caller-supplied fields of `createAudioTrack` (`InsertAudioTrack`):
the upload-time data spread into the new record before the server-side
defaults override the derived fields. -/
structure InsertAudioTrack where
  userId : Nat
  originalPath : String
  originalFilename : String
deriving Repr, DecidableEq

/-- `AudioTrack` as used by `storage.ts` and the client components:
`extendedPaths`/`extendedDurations` are the per-version artifact lists read by
TrackView, `status` is the lifecycle string field. -/
structure AudioTrack where
  id : Nat
  userId : Nat
  originalPath : String
  originalFilename : String
  extendedPath : Option String
  extendedPaths : Option (List String)
  extendedDurations : Option (List Nat)
  duration : Option Nat
  extendedDuration : Option Nat
  bpm : Option Nat
  key : Option String
  format : Option String
  bitrate : Option Nat
  status : String
  settings : Option Settings
deriving Repr, DecidableEq

/-- A partial patch (`UpdateAudioTrack`): an outer `none` means the key is
absent from the patch object, so the JS spread `{ ...track, ...update }`
leaves the field untouched. -/
structure UpdateAudioTrack where
  extendedPath : Option (Option String) := none
  extendedPaths : Option (Option (List String)) := none
  extendedDurations : Option (Option (List Nat)) := none
  duration : Option (Option Nat) := none
  extendedDuration : Option (Option Nat) := none
  bpm : Option (Option Nat) := none
  key : Option (Option String) := none
  format : Option (Option String) := none
  bitrate : Option (Option Nat) := none
  status : Option String := none
  settings : Option (Option Settings) := none
deriving Repr, DecidableEq

structure User where
  id : Nat
  username : String
  password : String
deriving Repr, DecidableEq

structure InsertUser where
  username : String
  password : String
deriving Repr, DecidableEq

/-- Insertion-ordered map from ids, as a JS `Map<number, V>`. -/
abbrev JsMap (α : Type) := List (Nat × α)

/-- `Map.prototype.get`. -/
def mapGet {α : Type} (m : JsMap α) (id : Nat) : Option α :=
  (m.find? (fun p => p.1 = id)).map Prod.snd

/-- `Map.prototype.set`: replace in place when the key exists, else append. -/
def mapSet {α : Type} (m : JsMap α) (id : Nat) (v : α) : JsMap α :=
  if (m.find? (fun p => p.1 = id)).isSome then
    m.map (fun p => if p.1 = id then (id, v) else p)
  else
    m ++ [(id, v)]

/-- The private state of `MemStorage`. -/
structure MemStorage where
  users : JsMap User
  tracks : JsMap AudioTrack
  userIdCounter : Nat
  trackIdCounter : Nat
deriving Repr, DecidableEq

/-- The `MemStorage` constructor: empty maps, both counters start at 1. -/
def mkMemStorage : MemStorage :=
  { users := [], tracks := [], userIdCounter := 1, trackIdCounter := 1 }

/-- `MemStorage.getUser`. -/
def getUser (s : MemStorage) (id : Nat) : Option User × MemStorage :=
  (mapGet s.users id, s)

/-- `MemStorage.getUserByUsername`. -/
def getUserByUsername (s : MemStorage) (username : String) :
    Option User × MemStorage :=
  (((s.users.map Prod.snd).find? (fun u => u.username = username)), s)

/-- `MemStorage.createUser`. -/
def createUser (s : MemStorage) (insertUser : InsertUser) : User × MemStorage :=
  let id := s.userIdCounter
  let user : User := { id := id, username := insertUser.username,
                       password := insertUser.password }
  (user, { s with users := mapSet s.users id user, userIdCounter := id + 1 })

/-- `MemStorage.getAudioTrack`: `this.tracks.get(id)`, a pure read. -/
def getAudioTrack (s : MemStorage) (id : Nat) : Option AudioTrack × MemStorage :=
  (mapGet s.tracks id, s)

/-- `MemStorage.createAudioTrack`: spreads the insert payload, then overrides
the derived fields with `null` and `status: "uploaded"`; `extendedPaths` and
`extendedDurations` are not set at creation (absent, i.e. `none`). -/
def createAudioTrack (s : MemStorage) (track : InsertAudioTrack) :
    AudioTrack × MemStorage :=
  let id := s.trackIdCounter
  let newTrack : AudioTrack :=
    { id := id
      userId := track.userId
      originalPath := track.originalPath
      originalFilename := track.originalFilename
      extendedPath := none
      extendedPaths := none
      extendedDurations := none
      duration := none
      extendedDuration := none
      bpm := none
      key := none
      format := none
      bitrate := none
      status := "uploaded"
      settings := none }
  (newTrack, { s with tracks := mapSet s.tracks id newTrack,
                      trackIdCounter := id + 1 })

/-- The JS spread `{ ...track, ...update }`: a field present in the patch
overrides, an absent field keeps the stored value. -/
def applyUpdate (t : AudioTrack) (u : UpdateAudioTrack) : AudioTrack :=
  { t with
    extendedPath := u.extendedPath.getD t.extendedPath
    extendedPaths := u.extendedPaths.getD t.extendedPaths
    extendedDurations := u.extendedDurations.getD t.extendedDurations
    duration := u.duration.getD t.duration
    extendedDuration := u.extendedDuration.getD t.extendedDuration
    bpm := u.bpm.getD t.bpm
    key := u.key.getD t.key
    format := u.format.getD t.format
    bitrate := u.bitrate.getD t.bitrate
    status := u.status.getD t.status
    settings := u.settings.getD t.settings }

/-- `MemStorage.updateAudioTrack`: `undefined` on an unknown id (the store is
left untouched), otherwise merge the patch and write back. -/
def updateAudioTrack (s : MemStorage) (id : Nat) (u : UpdateAudioTrack) :
    Option AudioTrack × MemStorage :=
  match mapGet s.tracks id with
  | none => (none, s)
  | some t =>
      let updatedTrack := applyUpdate t u
      (some updatedTrack, { s with tracks := mapSet s.tracks id updatedTrack })

/-- `MemStorage.getAudioTracksByUserId`: filter the values in insertion
order, a pure read. -/
def getAudioTracksByUserId (s : MemStorage) (userId : Nat) :
    List AudioTrack × MemStorage :=
  ((s.tracks.map Prod.snd).filter (fun t => t.userId = userId), s)

/-! ## Spec-modelled Generation Coordinator / Status Poller / ClearAll

The server route handlers are not among the provided sources; the following
operations are modelled from the spec and act on the store only through the
embedded `MemStorage` operations above. -/

/-- The version cap: the TrackView regenerate guard disables the button at
`(track.extendedPaths?.length || 0) >= 4`. -/
def MAX_VERSIONS : Nat := 4

/-- Number of stored extended-mix versions:
`track.extendedPaths?.length || 0`. -/
def versionCount (t : AudioTrack) : Nat :=
  (t.extendedPaths.getD []).length

/-- Outcomes of `Submit` (spec taxonomy, section 7). -/
inductive SubmitResult where
  | accepted
  | alreadyProcessing
  | capacityExceeded
  | notFound
deriving Repr, DecidableEq

/-- Modelled from the spec: the Generation Coordinator's `Submit`
(the `POST /api/tracks/:id/process` handler, absent from the sources).
Guards in the order of the transition table of section 4.3: unknown id is
`NotFound`; a `Processing` track always rejects with `AlreadyProcessing`;
a full version history rejects with `CapacityExceeded`; otherwise the
check-and-set to `Processing` happens as one atomic step, `settings` is
overwritten with the submitted snapshot, and the Audio Engine is launched.
The returned `Bool` records whether the Audio Engine was invoked. -/
def submit (s : MemStorage) (id : Nat) (st : Settings) :
    SubmitResult × Bool × MemStorage :=
  match (getAudioTrack s id).1 with
  | none => (.notFound, false, s)
  | some t =>
      if t.status = "processing" then
        (.alreadyProcessing, false, s)
      else if MAX_VERSIONS ≤ versionCount t then
        (.capacityExceeded, false, s)
      else
        (.accepted, true,
          (updateAudioTrack s id
            { status := some "processing", settings := some (some st) }).2)

/-- Modelled from the spec: the Coordinator's Engine-success commit
(section 4.3): append the new artifact to the version lists, record its
duration, fill in derived metadata only where still unknown, and flip the
status to `completed`; the version cap is re-checked at commit time
(section 4.2, defense-in-depth). The write goes through
`updateAudioTrack`. -/
def engineSuccess (s : MemStorage) (id : Nat) (artifactPath : String)
    (durationSeconds : Nat) (bpmReported : Option Nat)
    (keyReported : Option String) : MemStorage :=
  match (getAudioTrack s id).1 with
  | none => s
  | some t =>
      if t.status = "processing" then
        if (t.extendedPaths.getD []).length < MAX_VERSIONS then
          (updateAudioTrack s id
            { extendedPaths :=
                some (some ((t.extendedPaths.getD []) ++ [artifactPath]))
              extendedDurations :=
                some (some ((t.extendedDurations.getD []) ++ [durationSeconds]))
              extendedPath := some (some artifactPath)
              extendedDuration := some (some durationSeconds)
              bpm := some (t.bpm.or bpmReported)
              key := some (t.key.or keyReported)
              status := some "completed" }).2
        else s
      else s

/-- Modelled from the spec: the Coordinator's Engine-failure commit
(section 4.3): status becomes `failed`, no ledger mutation. -/
def engineFailure (s : MemStorage) (id : Nat) : MemStorage :=
  match (getAudioTrack s id).1 with
  | none => s
  | some t =>
      if t.status = "processing" then
        (updateAudioTrack s id { status := some "failed" }).2
      else s

/-- Modelled from the spec: the Status Poller's `Check(trackId) ->
\x7bstatus, currentVersionCount\x7d` (the `GET /api/tracks/:id/status`
handler), a pure read through `getAudioTrack`. -/
def check (s : MemStorage) (id : Nat) :
    Option (String × Nat) × MemStorage :=
  match (getAudioTrack s id).1 with
  | none => (none, (getAudioTrack s id).2)
  | some t => (some (t.status, versionCount t), (getAudioTrack s id).2)

/-- `check` iterated `n` times, threading the store state; returns the list
of poll responses and the final state. -/
def checkN : Nat → MemStorage → Nat → List (Option (String × Nat)) × MemStorage
  | 0, s, _ => ([], s)
  | n + 1, s, id =>
      let r := check s id
      let rest := checkN n r.2 id
      (r.1 :: rest.1, rest.2)

/-- Modelled from the spec: `ClearAll() -> count` (the `DELETE /api/tracks`
handler invoked by the Home page's Clear All Tracks button): removes every
track from the store and returns how many were removed. Ids are never
reused, so the track id counter is not reset. -/
def clearAll (s : MemStorage) : Nat × MemStorage :=
  (s.tracks.length, { s with tracks := [] })

/-- The events that drive the orchestrated system; per the spec (section 3)
`status` transitions only via the Generation Coordinator, so these are
exactly the operations that touch track state. -/
inductive Event where
  | create (track : InsertAudioTrack)
  | submitEv (id : Nat) (st : Settings)
  | engineOk (id : Nat) (artifactPath : String) (durationSeconds : Nat)
             (bpmReported : Option Nat) (keyReported : Option String)
  | engineFail (id : Nat)
  | checkEv (id : Nat)
  | clear
deriving Repr, DecidableEq

/-- One system step. -/
def stepEv (s : MemStorage) : Event → MemStorage
  | .create tr => (createAudioTrack s tr).2
  | .submitEv id st => (submit s id st).2.2
  | .engineOk id p d b k => engineSuccess s id p d b k
  | .engineFail id => engineFailure s id
  | .checkEv id => (check s id).2
  | .clear => (clearAll s).2

/-- Run a sequence of events from the freshly constructed store. -/
def run (es : List Event) : MemStorage :=
  es.foldl stepEv mkMemStorage

/-- A store state is reachable when some event sequence produces it. -/
def Reachable (s : MemStorage) : Prop :=
  ∃ es : List Event, run es = s

/-- The version count of the track stored under `id`, if any. -/
def trackVersionCount (s : MemStorage) (id : Nat) : Option Nat :=
  ((getAudioTrack s id).1).map versionCount

/-- The ids handed out by the `create` events of an event sequence, in
order, starting from state `s`. -/
def createdIds : MemStorage → List Event → List Nat
  | _, [] => []
  | s, e :: es =>
      match e with
      | .create tr => (createAudioTrack s tr).1.id :: createdIds (stepEv s e) es
      | _ => createdIds (stepEv s e) es

/-! ## Lemmas about the JS map model -/

theorem find?_replace_hit {α : Type} (m : JsMap α) (id : Nat) (v : α)
    (h : (m.find? (fun p => p.1 = id)).isSome) :
    (m.map (fun p => if p.1 = id then (id, v) else p)).find?
      (fun p => p.1 = id) = some (id, v) := by
  induction m with
  | nil => simp at h
  | cons p rest ih =>
      by_cases hp : p.1 = id
      · rw [List.map_cons, if_pos hp, List.find?_cons_of_pos _ (by simp)]
      · rw [List.map_cons, if_neg hp,
          List.find?_cons_of_neg _ (by simp [hp])]
        rw [List.find?_cons_of_neg _ (by simp [hp])] at h
        exact ih h

theorem find?_append_hit {α : Type} (m : JsMap α) (id : Nat) (v : α)
    (h : m.find? (fun p => p.1 = id) = none) :
    (m ++ [(id, v)]).find? (fun p => p.1 = id) = some (id, v) := by
  induction m with
  | nil => rw [List.nil_append, List.find?_cons_of_pos _ (by simp)]
  | cons p rest ih =>
      by_cases hp : p.1 = id
      · rw [List.find?_cons_of_pos _ (by simp [hp])] at h
        simp at h
      · rw [List.cons_append, List.find?_cons_of_neg _ (by simp [hp])]
        rw [List.find?_cons_of_neg _ (by simp [hp])] at h
        exact ih h

theorem find?_replace_ne {α : Type} (m : JsMap α) (id id' : Nat) (v : α)
    (hne : id' ≠ id) :
    (m.map (fun p => if p.1 = id then (id, v) else p)).find?
      (fun p => p.1 = id') = m.find? (fun p => p.1 = id') := by
  induction m with
  | nil => rfl
  | cons p rest ih =>
      by_cases hp : p.1 = id
      · have hpid' : ¬ p.1 = id' := by rw [hp]; exact fun h => hne h.symm
        rw [List.map_cons, if_pos hp,
          List.find?_cons_of_neg _
            (by intro hcon; simp at hcon; exact hne hcon.symm),
          List.find?_cons_of_neg _ (by simp [hpid'])]
        exact ih
      · rw [List.map_cons, if_neg hp]
        by_cases hq : p.1 = id'
        · rw [List.find?_cons_of_pos _ (by simp [hq]),
            List.find?_cons_of_pos _ (by simp [hq])]
        · rw [List.find?_cons_of_neg _ (by simp [hq]),
            List.find?_cons_of_neg _ (by simp [hq])]
          exact ih

theorem find?_append_ne {α : Type} (m : JsMap α) (id id' : Nat) (v : α)
    (hne : id' ≠ id) :
    (m ++ [(id, v)]).find? (fun p => p.1 = id') =
      m.find? (fun p => p.1 = id') := by
  induction m with
  | nil =>
      rw [List.nil_append,
        List.find?_cons_of_neg _
          (by intro hcon; simp at hcon; exact hne hcon.symm)]
  | cons p rest ih =>
      rw [List.cons_append]
      by_cases hq : p.1 = id'
      · rw [List.find?_cons_of_pos _ (by simp [hq]),
          List.find?_cons_of_pos _ (by simp [hq])]
      · rw [List.find?_cons_of_neg _ (by simp [hq]),
          List.find?_cons_of_neg _ (by simp [hq])]
        exact ih

theorem mapGet_mapSet_self {α : Type} (m : JsMap α) (id : Nat) (v : α) :
    mapGet (mapSet m id v) id = some v := by
  unfold mapGet mapSet
  split
  · rw [find?_replace_hit m id v (by assumption)]; rfl
  · rw [find?_append_hit m id v
      (Option.not_isSome_iff_eq_none.mp (by assumption))]
    rfl

theorem mapGet_mapSet_ne {α : Type} (m : JsMap α) (id id' : Nat) (v : α)
    (hne : id' ≠ id) :
    mapGet (mapSet m id v) id' = mapGet m id' := by
  unfold mapGet mapSet
  split
  · rw [find?_replace_ne m id id' v hne]
  · rw [find?_append_ne m id id' v hne]

theorem mem_mapSet {α : Type} (m : JsMap α) (id : Nat) (v : α) :
    ∀ p ∈ mapSet m id v, p.2 = v ∨ p ∈ m := by
  unfold mapSet
  split
  · intro p hp
    obtain ⟨q, hq, hfq⟩ := List.mem_map.mp hp
    by_cases hq1 : q.1 = id
    · left; rw [if_pos hq1] at hfq; rw [← hfq]
    · right; rw [if_neg hq1] at hfq; rw [← hfq]; exact hq
  · intro p hp
    rcases List.mem_append.mp hp with h | h
    · right; exact h
    · left; rw [List.mem_singleton.mp h]

theorem mem_of_mapGet {α : Type} (m : JsMap α) (id : Nat) (v : α)
    (h : mapGet m id = some v) : ∃ p ∈ m, p.2 = v := by
  unfold mapGet at h
  cases hf : m.find? (fun p => p.1 = id) with
  | none => rw [hf] at h; simp at h
  | some p =>
      rw [hf] at h
      exact ⟨p, List.mem_of_find?_eq_some hf, by simpa using h⟩

theorem isSome_mapGet_mapSet {α : Type} (m : JsMap α) (id id' : Nat) (v : α)
    (h : (mapGet m id').isSome) : (mapGet (mapSet m id v) id').isSome := by
  by_cases hne : id' = id
  · subst hne; rw [mapGet_mapSet_self]; rfl
  · rw [mapGet_mapSet_ne m id id' v hne]; exact h

/-! ## The capacity invariant -/

/-- Per-track invariant: at most `MAX_VERSIONS` stored versions, and a track
that is `processing` still has room for the version its in-flight generation
will append. -/
def TrackInv (t : AudioTrack) : Prop :=
  versionCount t ≤ MAX_VERSIONS ∧
    (t.status = "processing" → versionCount t < MAX_VERSIONS)

/-- Store-wide invariant: every stored track satisfies `TrackInv`. -/
def StoreInv (s : MemStorage) : Prop :=
  ∀ p ∈ s.tracks, TrackInv p.2

theorem trackInv_of_mapGet (s : MemStorage) (id : Nat) (t : AudioTrack)
    (hs : StoreInv s) (h : mapGet s.tracks id = some t) : TrackInv t := by
  obtain ⟨p, hp, hpt⟩ := mem_of_mapGet s.tracks id t h
  rw [← hpt]; exact hs p hp

theorem storeInv_updateAudioTrack (s : MemStorage) (id : Nat)
    (u : UpdateAudioTrack) (hs : StoreInv s)
    (h : ∀ t, mapGet s.tracks id = some t → TrackInv (applyUpdate t u)) :
    StoreInv (updateAudioTrack s id u).2 := by
  unfold updateAudioTrack
  split
  · exact hs
  · rename_i t heq
    intro p hp
    rcases mem_mapSet s.tracks id (applyUpdate t u) p hp with h2 | h2
    · rw [h2]; exact h t heq
    · exact hs p h2

theorem trackInv_new (s : MemStorage) (tr : InsertAudioTrack) :
    TrackInv (createAudioTrack s tr).1 := by
  constructor
  · show (0 : Nat) ≤ 4
    exact Nat.zero_le 4
  · intro h
    have h2 : ("uploaded" : String) = "processing" := h
    exact absurd h2 (by decide)

theorem storeInv_create (s : MemStorage) (tr : InsertAudioTrack)
    (hs : StoreInv s) : StoreInv (createAudioTrack s tr).2 := by
  intro p hp
  rcases mem_mapSet s.tracks s.trackIdCounter (createAudioTrack s tr).1 p hp
    with h | h
  · rw [h]; exact trackInv_new s tr
  · exact hs p h

theorem storeInv_submit (s : MemStorage) (id : Nat) (st : Settings)
    (hs : StoreInv s) : StoreInv (submit s id st).2.2 := by
  unfold submit
  split
  · exact hs
  · rename_i t heq
    split
    · exact hs
    · split
      · exact hs
      · rename_i hproc hcap
        apply storeInv_updateAudioTrack s id _ hs
        intro t' heq'
        have heq2 : mapGet s.tracks id = some t := heq
        rw [heq2] at heq'
        injection heq' with ht
        subst ht
        have h4 : versionCount t < MAX_VERSIONS := Nat.lt_of_not_le hcap
        exact ⟨Nat.le_of_lt h4, fun _ => h4⟩

theorem storeInv_engineSuccess (s : MemStorage) (id : Nat)
    (artifactPath : String) (durationSeconds : Nat) (bpmReported : Option Nat)
    (keyReported : Option String) (hs : StoreInv s) :
    StoreInv (engineSuccess s id artifactPath durationSeconds bpmReported
      keyReported) := by
  unfold engineSuccess
  split
  · exact hs
  · rename_i t heq
    split
    · split
      · rename_i hproc hlen
        apply storeInv_updateAudioTrack s id _ hs
        intro t' heq'
        have heq2 : mapGet s.tracks id = some t := heq
        rw [heq2] at heq'
        injection heq' with ht
        subst ht
        constructor
        · show ((t.extendedPaths.getD []) ++ [artifactPath]).length ≤ 4
          rw [List.length_append, List.length_singleton]
          exact Nat.succ_le_of_lt hlen
        · intro hcon
          have hcon2 : ("completed" : String) = "processing" := hcon
          exact absurd hcon2 (by decide)
      · exact hs
    · exact hs

theorem storeInv_engineFailure (s : MemStorage) (id : Nat)
    (hs : StoreInv s) : StoreInv (engineFailure s id) := by
  unfold engineFailure
  split
  · exact hs
  · rename_i t heq
    split
    · apply storeInv_updateAudioTrack s id _ hs
      intro t' heq'
      have heq2 : mapGet s.tracks id = some t := heq
      rw [heq2] at heq'
      injection heq' with ht
      subst ht
      have hinv : TrackInv t := trackInv_of_mapGet s id t hs heq2
      constructor
      · exact hinv.1
      · intro hcon
        have hcon2 : ("failed" : String) = "processing" := hcon
        exact absurd hcon2 (by decide)
    · exact hs

theorem check_state (s : MemStorage) (id : Nat) : (check s id).2 = s := by
  unfold check
  split <;> rfl

theorem storeInv_step (s : MemStorage) (e : Event) (hs : StoreInv s) :
    StoreInv (stepEv s e) := by
  cases e with
  | create tr => exact storeInv_create s tr hs
  | submitEv id st => exact storeInv_submit s id st hs
  | engineOk id p d b k => exact storeInv_engineSuccess s id p d b k hs
  | engineFail id => exact storeInv_engineFailure s id hs
  | checkEv id => rw [show stepEv s (.checkEv id) = (check s id).2 from rfl,
      check_state]; exact hs
  | clear => intro p hp; exact absurd hp (List.not_mem_nil p)

theorem storeInv_foldl (es : List Event) :
    ∀ s : MemStorage, StoreInv s → StoreInv (es.foldl stepEv s) := by
  induction es with
  | nil => intro s hs; exact hs
  | cons e rest ih =>
      intro s hs
      exact ih (stepEv s e) (storeInv_step s e hs)

theorem storeInv_reachable (s : MemStorage) (hs : Reachable s) : StoreInv s := by
  obtain ⟨es, hes⟩ := hs
  rw [← hes]
  exact storeInv_foldl es mkMemStorage (fun p hp => absurd hp
    (List.not_mem_nil p))

/-! ## Claim C1 -/

/-- **C1.** For every track, at every reachable state, the number of stored
extended-mix versions (the track's `extendedPaths` sequence) is at most
`MAX_VERSIONS = 4`; and a 5th generation attempt on a track that already has
4 versions is rejected with `CapacityExceeded` before the Audio Engine is
invoked (the engine flag is `false`), leaving the store — hence the version
sequence at exactly 4 entries — unchanged. -/
theorem capacity_invariant :
    (∀ s : MemStorage, Reachable s →
      ∀ p ∈ s.tracks, versionCount p.2 ≤ MAX_VERSIONS) ∧
    (∀ (s : MemStorage) (id : Nat) (st : Settings), Reachable s →
      trackVersionCount s id = some MAX_VERSIONS →
      submit s id st = (.capacityExceeded, false, s)) := by
  constructor
  · intro s hr p hp
    exact (storeInv_reachable s hr p hp).1
  · intro s id st hr hv
    have hs := storeInv_reachable s hr
    unfold submit
    split
    · rename_i hm
      unfold trackVersionCount at hv
      rw [hm] at hv
      simp at hv
    · rename_i t hm
      unfold trackVersionCount at hv
      rw [hm] at hv
      have hv4 : versionCount t = MAX_VERSIONS := by simpa using hv
      have hinv := trackInv_of_mapGet s id t hs hm
      have hnp : ¬ t.status = "processing" := fun hp =>
        absurd (hinv.2 hp) (by rw [hv4]; exact Nat.lt_irrefl _)
      rw [if_neg hnp, if_pos hv4.ge]

/-- A concrete run: one upload followed by four successful generations. -/
def demoTrace : List Event :=
  [Event.create ⟨1, "up/a.mp3", "a.mp3"⟩,
   Event.submitEv 1 ⟨16⟩,
   Event.engineOk 1 "ext/a-v0.mp3" 120 (some 128) (some "C"),
   Event.submitEv 1 ⟨8⟩,
   Event.engineOk 1 "ext/a-v1.mp3" 130 none none,
   Event.submitEv 1 ⟨8⟩,
   Event.engineOk 1 "ext/a-v2.mp3" 140 none none,
   Event.submitEv 1 ⟨8⟩,
   Event.engineOk 1 "ext/a-v3.mp3" 150 none none]

/-- Witness for C1 at the concrete run `demoTrace`: the reachable state has a
track with exactly 4 versions, and the 5th submission is rejected with
`CapacityExceeded`, no Engine invocation, store unchanged. -/
theorem capacity_invariant_witness :
    (∀ p ∈ (run demoTrace).tracks, versionCount p.2 ≤ MAX_VERSIONS) ∧
    trackVersionCount (run demoTrace) 1 = some MAX_VERSIONS ∧
    submit (run demoTrace) 1 ⟨8⟩ =
      (.capacityExceeded, false, run demoTrace) :=
  ⟨capacity_invariant.1 (run demoTrace) ⟨demoTrace, rfl⟩,
   by rfl,
   capacity_invariant.2 (run demoTrace) 1 ⟨8⟩
     ⟨demoTrace, rfl⟩ (by rfl)⟩

/-! ## Submit helper lemmas -/

/-- The status of the track stored under `id`, if any. -/
def trackStatus (s : MemStorage) (id : Nat) : Option String :=
  ((getAudioTrack s id).1).map (fun t => t.status)

theorem updateAudioTrack_found (s : MemStorage) (id : Nat)
    (u : UpdateAudioTrack) (t : AudioTrack)
    (hget : mapGet s.tracks id = some t) :
    updateAudioTrack s id u = (some (applyUpdate t u),
      { s with tracks := mapSet s.tracks id (applyUpdate t u) }) := by
  unfold updateAudioTrack
  split
  · rename_i hm; rw [hm] at hget; exact absurd hget (by simp)
  · rename_i t' hm
    rw [hm] at hget
    injection hget with ht
    subst ht
    rfl

theorem submit_accepted_eq (s : MemStorage) (id : Nat) (st : Settings)
    (t : AudioTrack) (hget : (getAudioTrack s id).1 = some t)
    (hp : ¬ t.status = "processing")
    (hcap : versionCount t < MAX_VERSIONS) :
    submit s id st = (.accepted, true,
      (updateAudioTrack s id
        { status := some "processing", settings := some (some st) }).2) := by
  unfold submit
  split
  · rename_i hm; rw [hm] at hget; exact absurd hget (by simp)
  · rename_i t' hm
    rw [hm] at hget
    injection hget with ht
    subst ht
    rw [if_neg hp, if_neg (Nat.not_le.mpr hcap)]

theorem submit_processing_eq (s : MemStorage) (id : Nat) (st : Settings)
    (t : AudioTrack) (hget : (getAudioTrack s id).1 = some t)
    (hp : t.status = "processing") :
    submit s id st = (.alreadyProcessing, false, s) := by
  unfold submit
  split
  · rename_i hm; rw [hm] at hget; exact absurd hget (by simp)
  · rename_i t' hm
    rw [hm] at hget
    injection hget with ht
    subst ht
    rw [if_pos hp]

/-! ## Claim C2 -/

/-- **C2.** Two concurrent `Submit` calls on the same track id: since the
check-status-and-set-to-`Processing` step is modelled as one atomic step per
track (a compare-and-set on `status`, as the spec requires of the absent
route layer), any concurrent execution is one of the two serial orders, and
both orders are covered by the arbitrary pair of settings here: the `Submit`
that runs first is accepted and launches the Audio Engine; the second
observes `Processing` and is rejected with `AlreadyProcessing`, launching
nothing and leaving the store unchanged — exactly one of the two transitions
the track to `Processing` and invokes the Engine. -/
theorem submit_mutual_exclusion (s : MemStorage) (id : Nat)
    (st1 st2 : Settings) (t : AudioTrack)
    (hget : (getAudioTrack s id).1 = some t)
    (hp : ¬ t.status = "processing")
    (hcap : versionCount t < MAX_VERSIONS) :
    (submit s id st1).1 = SubmitResult.accepted ∧
    (submit s id st1).2.1 = true ∧
    (submit (submit s id st1).2.2 id st2).1 =
      SubmitResult.alreadyProcessing ∧
    (submit (submit s id st1).2.2 id st2).2.1 = false ∧
    (submit (submit s id st1).2.2 id st2).2.2 = (submit s id st1).2.2 := by
  have h1 := submit_accepted_eq s id st1 t hget hp hcap
  have hupd := updateAudioTrack_found s id
    { status := some "processing", settings := some (some st1) } t hget
  have hget1 : (getAudioTrack (submit s id st1).2.2 id).1 =
      some (applyUpdate t
        { status := some "processing", settings := some (some st1) }) := by
    rw [h1, hupd]
    exact mapGet_mapSet_self s.tracks id _
  have hst1 : (applyUpdate t
      { status := some "processing", settings := some (some st1) }).status =
      "processing" := rfl
  have h2 := submit_processing_eq (submit s id st1).2.2 id st2 _ hget1 hst1
  exact ⟨by rw [h1], by rw [h1], by rw [h2], by rw [h2], by rw [h2]⟩

/-- The single-upload run used by the C2 witness. -/
def demoUpload : List Event := [Event.create ⟨1, "up/a.mp3", "a.mp3"⟩]

/-- Witness for C2: on the freshly uploaded track, the first `Submit` is
accepted and launches the Engine, the serialized second `Submit` gets
`AlreadyProcessing` and launches nothing. -/
theorem submit_mutual_exclusion_witness :
    (submit (run demoUpload) 1 ⟨16⟩).1 = SubmitResult.accepted ∧
    (submit (run demoUpload) 1 ⟨16⟩).2.1 = true ∧
    (submit (submit (run demoUpload) 1 ⟨16⟩).2.2 1 ⟨8⟩).1 =
      SubmitResult.alreadyProcessing ∧
    (submit (submit (run demoUpload) 1 ⟨16⟩).2.2 1 ⟨8⟩).2.1 = false ∧
    (submit (submit (run demoUpload) 1 ⟨16⟩).2.2 1 ⟨8⟩).2.2 =
      (submit (run demoUpload) 1 ⟨16⟩).2.2 :=
  submit_mutual_exclusion (run demoUpload) 1 ⟨16⟩ ⟨8⟩
    (createAudioTrack mkMemStorage ⟨1, "up/a.mp3", "a.mp3"⟩).1
    (by rfl) (by decide) (by decide)

/-! ## Claim C3 -/

/-- **C3.** For every track whose status is `Processing`, a `Submit` event is
always rejected: the result is `AlreadyProcessing` (signalling "already in
progress" to the caller), the Audio Engine flag is `false` (no second
generation is launched), and the returned store is the input store, so the
status remains `Processing` unchanged. -/
theorem processing_submit_always_rejected (s : MemStorage) (id : Nat)
    (st : Settings) (hp : trackStatus s id = some "processing") :
    submit s id st = (.alreadyProcessing, false, s) := by
  unfold trackStatus at hp
  cases hm : (getAudioTrack s id).1 with
  | none => rw [hm] at hp; simp at hp
  | some t =>
      rw [hm] at hp
      have hps : t.status = "processing" := by simpa using hp
      exact submit_processing_eq s id st t hm hps

/-- The upload-then-submit run used by the C3 witness: its track is
`processing`. -/
def demoProcessing : List Event :=
  [Event.create ⟨1, "up/a.mp3", "a.mp3"⟩, Event.submitEv 1 ⟨16⟩]

/-- Witness for C3 at a concrete processing state. -/
theorem processing_submit_always_rejected_witness :
    trackStatus (run demoProcessing) 1 = some "processing" ∧
    submit (run demoProcessing) 1 ⟨8⟩ =
      (.alreadyProcessing, false, run demoProcessing) :=
  ⟨by rfl,
   processing_submit_always_rejected (run demoProcessing) 1 ⟨8⟩ (by rfl)⟩

/-! ## Claim C4 -/

/-- **C4.** The Track Store provides a `ClearAll` operation that removes all
tracks from the store (the resulting track map is empty) and returns the
count of removed tracks; and this bulk clear is the only way an `AudioTrack`
is destroyed: every other store operation keeps every stored track id
present — `createAudioTrack` and `updateAudioTrack` never remove an entry,
the reads return the store unchanged, and the user operations do not touch
the track map at all (there is no per-track delete). -/
theorem clearAll_contract (s : MemStorage) :
    (clearAll s).1 = s.tracks.length ∧
    (clearAll s).2.tracks = [] ∧
    (∀ (ins : InsertAudioTrack) (id : Nat), (mapGet s.tracks id).isSome →
      (mapGet (createAudioTrack s ins).2.tracks id).isSome) ∧
    (∀ (id' : Nat) (u : UpdateAudioTrack) (id : Nat),
      (mapGet s.tracks id).isSome →
      (mapGet (updateAudioTrack s id' u).2.tracks id).isSome) ∧
    (∀ id : Nat, (getAudioTrack s id).2 = s) ∧
    (∀ uid : Nat, (getAudioTracksByUserId s uid).2 = s) ∧
    (∀ iu : InsertUser, (createUser s iu).2.tracks = s.tracks) ∧
    (∀ id : Nat, (getUser s id).2 = s) ∧
    (∀ un : String, (getUserByUsername s un).2 = s) := by
  refine ⟨rfl, rfl, ?_, ?_, fun _ => rfl, fun _ => rfl, fun _ => rfl,
    fun _ => rfl, fun _ => rfl⟩
  · intro ins id h
    exact isSome_mapGet_mapSet s.tracks s.trackIdCounter id _ h
  · intro id' u id h
    unfold updateAudioTrack
    split
    · exact h
    · exact isSome_mapGet_mapSet s.tracks id' id _ h

/-- Witness for C4 at a one-track store: `ClearAll` reports one removed
track and empties the map, while create and update keep track 1 present. -/
theorem clearAll_contract_witness :
    (clearAll (run demoUpload)).1 = (run demoUpload).tracks.length ∧
    (clearAll (run demoUpload)).2.tracks = [] ∧
    (mapGet (createAudioTrack (run demoUpload)
      ⟨2, "up/b.mp3", "b.mp3"⟩).2.tracks 1).isSome ∧
    (mapGet (updateAudioTrack (run demoUpload) 1
      { status := some "failed" }).2.tracks 1).isSome := by
  obtain ⟨h1, h2, h3, h4, _⟩ := clearAll_contract (run demoUpload)
  exact ⟨h1, h2, h3 ⟨2, "up/b.mp3", "b.mp3"⟩ 1 (by rfl),
    h4 1 { status := some "failed" } 1 (by rfl)⟩

/-! ## Claim C5 -/

/-- **C5.** For every input to `createAudioTrack`, the returned `AudioTrack`
has status `uploaded`, an empty version history (no `extendedPaths` entry,
version count 0), and its derived metadata fields `bpm`, `key`, `format`
and `bitrate` set to the unknown value `none`, regardless of the
caller-supplied fields. -/
theorem createAudioTrack_defaults (s : MemStorage) (tr : InsertAudioTrack) :
    (createAudioTrack s tr).1.status = "uploaded" ∧
    versionCount (createAudioTrack s tr).1 = 0 ∧
    (createAudioTrack s tr).1.extendedPaths = none ∧
    (createAudioTrack s tr).1.bpm = none ∧
    (createAudioTrack s tr).1.key = none ∧
    (createAudioTrack s tr).1.format = none ∧
    (createAudioTrack s tr).1.bitrate = none :=
  ⟨rfl, rfl, rfl, rfl, rfl, rfl, rfl⟩

/-! ## Claim C6 -/

theorem updateAudioTrack_counter (s : MemStorage) (id : Nat)
    (u : UpdateAudioTrack) :
    (updateAudioTrack s id u).2.trackIdCounter = s.trackIdCounter := by
  unfold updateAudioTrack
  split <;> rfl

theorem submit_counter (s : MemStorage) (id : Nat) (st : Settings) :
    (submit s id st).2.2.trackIdCounter = s.trackIdCounter := by
  unfold submit
  split
  · rfl
  · split
    · rfl
    · split
      · rfl
      · exact updateAudioTrack_counter s id _

theorem engineSuccess_counter (s : MemStorage) (id : Nat) (p : String)
    (d : Nat) (b : Option Nat) (k : Option String) :
    (engineSuccess s id p d b k).trackIdCounter = s.trackIdCounter := by
  unfold engineSuccess
  split
  · rfl
  · split
    · split
      · exact updateAudioTrack_counter s id _
      · rfl
    · rfl

theorem engineFailure_counter (s : MemStorage) (id : Nat) :
    (engineFailure s id).trackIdCounter = s.trackIdCounter := by
  unfold engineFailure
  split
  · rfl
  · split
    · exact updateAudioTrack_counter s id _
    · rfl

theorem stepEv_counter_mono (s : MemStorage) (e : Event) :
    s.trackIdCounter ≤ (stepEv s e).trackIdCounter := by
  cases e with
  | create tr => exact Nat.le_succ _
  | submitEv id st => rw [show stepEv s (.submitEv id st) = (submit s id st).2.2
      from rfl, submit_counter]
  | engineOk id p d b k => rw [show stepEv s (.engineOk id p d b k) =
      engineSuccess s id p d b k from rfl, engineSuccess_counter]
  | engineFail id => rw [show stepEv s (.engineFail id) = engineFailure s id
      from rfl, engineFailure_counter]
  | checkEv id => rw [show stepEv s (.checkEv id) = (check s id).2 from rfl,
      check_state]
  | clear => exact Nat.le_refl _

theorem createdIds_lb (es : List Event) :
    ∀ s : MemStorage, ∀ x ∈ createdIds s es, s.trackIdCounter ≤ x := by
  induction es with
  | nil => intro s x hx; exact absurd hx (List.not_mem_nil x)
  | cons e rest ih =>
      intro s x hx
      cases e with
      | create tr =>
          simp only [createdIds] at hx
          rcases List.mem_cons.mp hx with h | h
          · rw [h]; exact Nat.le_refl _
          · exact Nat.le_trans (Nat.le_succ _) (ih (stepEv s (.create tr)) x h)
      | submitEv id st =>
          simp only [createdIds] at hx
          exact Nat.le_trans (stepEv_counter_mono s (.submitEv id st))
            (ih _ x hx)
      | engineOk id p d b k =>
          simp only [createdIds] at hx
          exact Nat.le_trans (stepEv_counter_mono s (.engineOk id p d b k))
            (ih _ x hx)
      | engineFail id =>
          simp only [createdIds] at hx
          exact Nat.le_trans (stepEv_counter_mono s (.engineFail id))
            (ih _ x hx)
      | checkEv id =>
          simp only [createdIds] at hx
          exact Nat.le_trans (stepEv_counter_mono s (.checkEv id)) (ih _ x hx)
      | clear =>
          simp only [createdIds] at hx
          exact Nat.le_trans (stepEv_counter_mono s .clear) (ih _ x hx)

theorem createdIds_pairwise_lt (es : List Event) :
    ∀ s : MemStorage, (createdIds s es).Pairwise (· < ·) := by
  induction es with
  | nil => intro s; exact List.Pairwise.nil
  | cons e rest ih =>
      intro s
      cases e with
      | create tr =>
          simp only [createdIds]
          refine List.pairwise_cons.mpr ⟨?_, ih _⟩
          intro b hb
          exact Nat.lt_of_succ_le (createdIds_lb rest (stepEv s (.create tr))
            b hb)
      | submitEv id st => simp only [createdIds]; exact ih _
      | engineOk id p d b k => simp only [createdIds]; exact ih _
      | engineFail id => simp only [createdIds]; exact ih _
      | checkEv id => simp only [createdIds]; exact ih _
      | clear => simp only [createdIds]; exact ih _

/-- **C6.** For every sequence of events driving the store from its initial
state, the ids assigned by the `createAudioTrack` calls are pairwise
distinct — each `Create` call assigns an id distinct from the id of every
previously created track, and ids are never reused (the counter only grows,
even across `ClearAll`). -/
theorem create_ids_unique (es : List Event) :
    (createdIds mkMemStorage es).Pairwise (· ≠ ·) :=
  (createdIds_pairwise_lt es mkMemStorage).imp Nat.ne_of_lt

/-! ## Claim C7 -/

/-- **C7.** For every track present in the store and every partial patch,
`updateAudioTrack` returns exactly the spread-merge of the stored track with
the patch, and that merge leaves every field that is absent from the patch
(outer `none`) unchanged — including the identity fields, which are not part
of the patch type at all — while every other track id in the store maps to
the same record as before. -/
theorem update_frame (s : MemStorage) (id : Nat) (u : UpdateAudioTrack)
    (t : AudioTrack) (h : (getAudioTrack s id).1 = some t) :
    (updateAudioTrack s id u).1 = some (applyUpdate t u) ∧
    (applyUpdate t u).id = t.id ∧
    (applyUpdate t u).userId = t.userId ∧
    (applyUpdate t u).originalPath = t.originalPath ∧
    (applyUpdate t u).originalFilename = t.originalFilename ∧
    (u.extendedPath = none →
      (applyUpdate t u).extendedPath = t.extendedPath) ∧
    (u.extendedPaths = none →
      (applyUpdate t u).extendedPaths = t.extendedPaths) ∧
    (u.extendedDurations = none →
      (applyUpdate t u).extendedDurations = t.extendedDurations) ∧
    (u.duration = none → (applyUpdate t u).duration = t.duration) ∧
    (u.extendedDuration = none →
      (applyUpdate t u).extendedDuration = t.extendedDuration) ∧
    (u.bpm = none → (applyUpdate t u).bpm = t.bpm) ∧
    (u.key = none → (applyUpdate t u).key = t.key) ∧
    (u.format = none → (applyUpdate t u).format = t.format) ∧
    (u.bitrate = none → (applyUpdate t u).bitrate = t.bitrate) ∧
    (u.status = none → (applyUpdate t u).status = t.status) ∧
    (u.settings = none → (applyUpdate t u).settings = t.settings) ∧
    (∀ id' : Nat, id' ≠ id →
      mapGet (updateAudioTrack s id u).2.tracks id' = mapGet s.tracks id') := by
  have hu := updateAudioTrack_found s id u t h
  refine ⟨by rw [hu], rfl, rfl, rfl, rfl, ?_, ?_, ?_, ?_, ?_, ?_, ?_, ?_, ?_,
    ?_, ?_, ?_⟩
  · intro hn
    show u.extendedPath.getD t.extendedPath = t.extendedPath
    rw [hn]
    rfl
  · intro hn
    show u.extendedPaths.getD t.extendedPaths = t.extendedPaths
    rw [hn]
    rfl
  · intro hn
    show u.extendedDurations.getD t.extendedDurations = t.extendedDurations
    rw [hn]
    rfl
  · intro hn
    show u.duration.getD t.duration = t.duration
    rw [hn]
    rfl
  · intro hn
    show u.extendedDuration.getD t.extendedDuration = t.extendedDuration
    rw [hn]
    rfl
  · intro hn
    show u.bpm.getD t.bpm = t.bpm
    rw [hn]
    rfl
  · intro hn
    show u.key.getD t.key = t.key
    rw [hn]
    rfl
  · intro hn
    show u.format.getD t.format = t.format
    rw [hn]
    rfl
  · intro hn
    show u.bitrate.getD t.bitrate = t.bitrate
    rw [hn]
    rfl
  · intro hn
    show u.status.getD t.status = t.status
    rw [hn]
    rfl
  · intro hn
    show u.settings.getD t.settings = t.settings
    rw [hn]
    rfl
  · intro id' hne
    rw [hu]
    exact mapGet_mapSet_ne s.tracks id id' _ hne

/-- Witness for C7: a patch that only sets `bpm` leaves the status of track 1
as stored and leaves the (absent) track 2 unchanged. -/
theorem update_frame_witness :
    (applyUpdate (createAudioTrack mkMemStorage ⟨1, "up/a.mp3", "a.mp3"⟩).1
      { bpm := some (some 128) }).status =
      (createAudioTrack mkMemStorage ⟨1, "up/a.mp3", "a.mp3"⟩).1.status ∧
    mapGet (updateAudioTrack (run demoUpload) 1
      { bpm := some (some 128) }).2.tracks 2 =
      mapGet (run demoUpload).tracks 2 := by
  obtain ⟨h1, h2, h3, h4, h5, h6, h7, h8, h9, h10, h11, h12, h13, h14, h15,
    h16, h17⟩ := update_frame (run demoUpload) 1 { bpm := some (some 128) }
      (createAudioTrack mkMemStorage ⟨1, "up/a.mp3", "a.mp3"⟩).1 (by rfl)
  exact ⟨h15 (by rfl), h17 2 (by decide)⟩

/-! ## Claim C8 -/

theorem updateAudioTrack_notFound (s : MemStorage) (id : Nat)
    (u : UpdateAudioTrack) (h : mapGet s.tracks id = none) :
    updateAudioTrack s id u = (none, s) := by
  unfold updateAudioTrack
  split
  · rfl
  · rename_i t hm
    rw [hm] at h
    exact absurd h (by simp)

/-- **C8.** For every track id not present in the store, `getAudioTrack` and
`updateAudioTrack` both return `NotFound` (`none`), and the failed update
returns the input store itself — no record is created or modified. -/
theorem notFound_behaviour (s : MemStorage) (id : Nat) (u : UpdateAudioTrack)
    (h : mapGet s.tracks id = none) :
    getAudioTrack s id = (none, s) ∧ updateAudioTrack s id u = (none, s) := by
  constructor
  · show (mapGet s.tracks id, s) = (none, s)
    rw [h]
  · exact updateAudioTrack_notFound s id u h

/-- Witness for C8 at a store holding only track 1: id 7 is absent. -/
theorem notFound_behaviour_witness :
    getAudioTrack (run demoUpload) 7 = (none, run demoUpload) ∧
    updateAudioTrack (run demoUpload) 7 { status := some "completed" } =
      (none, run demoUpload) :=
  notFound_behaviour (run demoUpload) 7 { status := some "completed" }
    (by rfl)

/-! ## Claim C9 -/

/-- **C9.** `Check` (the status poll) is idempotent and side-effect free: for
every track id and every `N`, calling it `N` times with no intervening state
change leaves the store exactly as it was and returns the identical response
each time. -/
theorem check_idempotent (n : Nat) (s : MemStorage) (id : Nat) :
    (checkN n s id).2 = s ∧
    ∀ r ∈ (checkN n s id).1, r = (check s id).1 := by
  induction n with
  | zero => exact ⟨rfl, fun r hr => absurd hr (List.not_mem_nil r)⟩
  | succ k ih =>
      have hcs : (check s id).2 = s := check_state s id
      constructor
      · show (checkN k (check s id).2 id).2 = s
        rw [hcs]
        exact ih.1
      · intro r hr
        have hr2 : r ∈ (check s id).1 :: (checkN k (check s id).2 id).1 := hr
        rcases List.mem_cons.mp hr2 with h | h
        · exact h
        · rw [hcs] at h
          exact ih.2 r h

/-- Witness for C9: three polls of the freshly uploaded track all answer
`("uploaded", 0)` and leave the store untouched. -/
theorem check_idempotent_witness :
    (checkN 3 (run demoUpload) 1).2 = run demoUpload ∧
    some ("uploaded", 0) ∈ (checkN 3 (run demoUpload) 1).1 ∧
    some ("uploaded", 0) = (check (run demoUpload) 1).1 := by
  obtain ⟨h1, h2⟩ := check_idempotent 3 (run demoUpload) 1
  have hm : some (("uploaded" : String), 0) ∈
      (checkN 3 (run demoUpload) 1).1 := by decide
  exact ⟨h1, hm, h2 _ hm⟩

/-! ## Claim C10 -/

/-- **C10.** Read-after-write consistency: if `updateAudioTrack` returns a
merged record `t'`, then an immediately subsequent `getAudioTrack` on the
resulting store returns exactly that `t'`. -/
theorem update_read_after_write (s : MemStorage) (id : Nat)
    (u : UpdateAudioTrack) (t' : AudioTrack)
    (h : (updateAudioTrack s id u).1 = some t') :
    (getAudioTrack (updateAudioTrack s id u).2 id).1 = some t' := by
  cases hm : mapGet s.tracks id with
  | none =>
      rw [updateAudioTrack_notFound s id u hm] at h
      exact absurd h (by simp)
  | some t =>
      have hu := updateAudioTrack_found s id u t hm
      have h2 : some (applyUpdate t u) = some t' := by rw [← h, hu]
      rw [hu]
      show mapGet (mapSet s.tracks id (applyUpdate t u)) id = some t'
      rw [mapGet_mapSet_self, h2]

/-- Witness for C10: updating track 1's status and reading it back returns
the just-written record. -/
theorem update_read_after_write_witness :
    (getAudioTrack (updateAudioTrack (run demoUpload) 1
      { status := some "failed" }).2 1).1 =
      some (applyUpdate
        (createAudioTrack mkMemStorage ⟨1, "up/a.mp3", "a.mp3"⟩).1
        { status := some "failed" }) :=
  update_read_after_write (run demoUpload) 1 { status := some "failed" }
    (applyUpdate (createAudioTrack mkMemStorage ⟨1, "up/a.mp3", "a.mp3"⟩).1
      { status := some "failed" })
    (by rfl)
